import Mathlib

/-
  Verification of the configuration-distribution core of go-register-server
  (pkg/api/service/config_service.go).

  Shallow embedding conventions:
  - Decoded YAML values are the inductive YVal; Go map-of-interface values are
    association lists with string keys, so decoded mappings are
    List (String × YVal).  Go map iteration order is realised as list order;
    all stated properties are about key lookups, which are order independent
    for the well-formed (duplicate-free) maps produced by YAML decoding.
  - Serialized YAML text is the type Blob: the external yaml codec is
    abstracted by identifying a well-formed blob with its decoded mapping
    (Blob.yaml m), keeping a distinguished empty string (Blob.empty) and a
    non-empty undecodable text (Blob.invalid).  Marshalling a decoded mapping
    never fails, so the marshal-error branches of the source are dead in the
    model; unmarshalling Blob.invalid fails, mirroring a corrupt stored blob.
  - Go runtime panics (nil-pointer dereference, calling Kind on the nil
    reflect.Type of an interface holding nil) are explicit outcomes of the
    embedded functions rather than partiality.
-/

inductive YVal where
  | nil
  | scalar (s : String)
  | seq (l : List YVal)
  | map (entries : List (String × YVal))

abbrev YMap := List (String × YVal)

/-- First binding of a key in an association list, mirroring a Go map read
that distinguishes presence (the comma-ok form used by utils.Contain). -/
def lookupY : YMap → String → Option YVal
  | [], _ => none
  | (k', v) :: rest, k => if k' = k then some v else lookupY rest k

/-- In-place update of a key binding, appending when the key is absent,
mirroring a Go map assignment. -/
def setY : YMap → String → YVal → YMap
  | [], k, v => [(k, v)]
  | (k', v') :: rest, k, v =>
      if k' = k then (k, v) :: rest else (k', v') :: setY rest k v

/-- Removal of a key binding, mirroring the Go builtin delete. -/
def removeY : YMap → String → YMap
  | [], _ => []
  | (k', v') :: rest, k =>
      if k' = k then removeY rest k else (k', v') :: removeY rest k

def isMapV : YVal → Bool
  | YVal.map _ => true
  | _ => false

def isScalarOrSeq : YVal → Bool
  | YVal.scalar _ => true
  | YVal.seq _ => true
  | _ => false

/-- recursiveAdd (config_service.go lines 230-239).  For each incoming
binding: absent keys are inserted verbatim (utils.Contain is modelled as key
membership, its only reading consistent with the callers and the spec); keys
present on both sides recurse when both values are non-nil mappings
(the source guards nv and ov against nil before calling reflect, so a nil on
either side falls through to the no-op branch); anything else keeps the
existing value. -/
def recursiveAdd : YMap → YMap → YMap
  | oldMap, [] => oldMap
  | oldMap, (nk, nv) :: rest =>
    match lookupY oldMap nk, nv with
    | none, _ => recursiveAdd (setY oldMap nk nv) rest
    | some (YVal.map ovm), YVal.map nvm =>
        recursiveAdd (setY oldMap nk (YVal.map (recursiveAdd ovm nvm))) rest
    | some _, _ => recursiveAdd oldMap rest
termination_by _ m => sizeOf m
decreasing_by all_goals simp_wf <;> omega

theorem lookupY_setY_self (m : YMap) (k : String) (v : YVal) :
    lookupY (setY m k v) k = some v := by
  induction m with
  | nil => simp [setY, lookupY]
  | cons p rest ih =>
    obtain ⟨k', v'⟩ := p
    by_cases h : k' = k
    · subst h; simp [setY, lookupY]
    · simp [setY, lookupY, h, ih]

theorem lookupY_setY_ne (m : YMap) (k k' : String) (v : YVal) (h : k ≠ k') :
    lookupY (setY m k v) k' = lookupY m k' := by
  induction m with
  | nil => simp [setY, lookupY, h]
  | cons p rest ih =>
    obtain ⟨k'', v''⟩ := p
    by_cases h2 : k'' = k
    · subst h2; simp [setY, lookupY, h]
    · simp [setY, lookupY, h2, ih]

theorem lookupY_removeY_self (m : YMap) (k : String) :
    lookupY (removeY m k) k = none := by
  induction m with
  | nil => simp [removeY, lookupY]
  | cons p rest ih =>
    obtain ⟨k', v'⟩ := p
    by_cases h : k' = k
    · subst h; simp [removeY, ih]
    · simp [removeY, lookupY, h, ih]

theorem lookupY_eq_none_of_not_mem_keys (m : YMap) (k : String)
    (h : k ∉ m.map Prod.fst) : lookupY m k = none := by
  induction m with
  | nil => simp [lookupY]
  | cons p rest ih =>
    obtain ⟨k', v'⟩ := p
    simp only [List.map_cons, List.mem_cons] at h
    push_neg at h
    have h1 : ¬k' = k := fun hk => h.1 hk.symm
    simp [lookupY, h1, ih h.2]

theorem recursiveAdd_lookup_absent (E N : YMap) (k : String) :
    lookupY N k = none → lookupY (recursiveAdd E N) k = lookupY E k := by
  induction E, N using recursiveAdd.induct with
  | case1 oldMap => intro _; rw [recursiveAdd.eq_1]
  | case2 oldMap nk nv rest hnone ih =>
    intro h
    have hk : nk ≠ k := by intro he; subst he; simp [lookupY] at h
    have hrest : lookupY rest k = none := by simpa [lookupY, hk] using h
    rw [recursiveAdd.eq_2 _ _ _ _ hnone, ih hrest, lookupY_setY_ne _ _ _ _ hk]
  | case3 oldMap nk rest ovm nvm hsome ih1 ih2 =>
    intro h
    have hk : nk ≠ k := by intro he; subst he; simp [lookupY] at h
    have hrest : lookupY rest k = none := by simpa [lookupY, hk] using h
    rw [recursiveAdd.eq_3 _ _ _ _ _ hsome, ih2 hrest, lookupY_setY_ne _ _ _ _ hk]
  | case4 oldMap nk nv rest val hsome hnm ih =>
    intro h
    have hk : nk ≠ k := by intro he; subst he; simp [lookupY] at h
    have hrest : lookupY rest k = none := by simpa [lookupY, hk] using h
    rw [recursiveAdd.eq_4 _ _ _ _ _ hsome hnm, ih hrest]

theorem recursiveAdd_keep_nonmap (E N : YMap) (k : String) (ov : YVal) :
    lookupY E k = some ov → isMapV ov = false →
    lookupY (recursiveAdd E N) k = some ov := by
  induction E, N using recursiveAdd.induct with
  | case1 oldMap => intro hE _; rw [recursiveAdd.eq_1]; exact hE
  | case2 oldMap nk nv rest hnone ih =>
    intro hE hm
    have hk : nk ≠ k := by intro he; subst he; rw [hnone] at hE; cases hE
    rw [recursiveAdd.eq_2 _ _ _ _ hnone]
    exact ih (by rw [lookupY_setY_ne _ _ _ _ hk]; exact hE) hm
  | case3 oldMap nk rest ovm nvm hsome ih1 ih2 =>
    intro hE hm
    by_cases hk : nk = k
    · subst hk
      rw [hsome] at hE
      injection hE with h1
      subst h1
      simp [isMapV] at hm
    · rw [recursiveAdd.eq_3 _ _ _ _ _ hsome]
      exact ih2 (by rw [lookupY_setY_ne _ _ _ _ hk]; exact hE) hm
  | case4 oldMap nk nv rest val hsome hnm ih =>
    intro hE hm
    rw [recursiveAdd.eq_4 _ _ _ _ _ hsome hnm]
    exact ih hE hm

theorem recursiveAdd_keep_nilIncoming (E N : YMap) (k : String) (ov : YVal) :
    (N.map Prod.fst).Nodup → lookupY E k = some ov → lookupY N k = some YVal.nil →
    lookupY (recursiveAdd E N) k = some ov := by
  induction E, N using recursiveAdd.induct with
  | case1 oldMap => intro _ _ hN; simp [lookupY] at hN
  | case2 oldMap nk nv rest hnone ih =>
    intro hnd hE hN
    simp only [List.map_cons, List.nodup_cons] at hnd
    have hk : nk ≠ k := by intro he; subst he; rw [hnone] at hE; cases hE
    have hN2 : lookupY rest k = some YVal.nil := by simpa [lookupY, hk] using hN
    rw [recursiveAdd.eq_2 _ _ _ _ hnone]
    exact ih hnd.2 (by rw [lookupY_setY_ne _ _ _ _ hk]; exact hE) hN2
  | case3 oldMap nk rest ovm nvm hsome ih1 ih2 =>
    intro hnd hE hN
    simp only [List.map_cons, List.nodup_cons] at hnd
    by_cases hk : nk = k
    · subst hk; simp [lookupY] at hN
    · have hN2 : lookupY rest k = some YVal.nil := by simpa [lookupY, hk] using hN
      rw [recursiveAdd.eq_3 _ _ _ _ _ hsome]
      exact ih2 hnd.2 (by rw [lookupY_setY_ne _ _ _ _ hk]; exact hE) hN2
  | case4 oldMap nk nv rest val hsome hnm ih =>
    intro hnd hE hN
    simp only [List.map_cons, List.nodup_cons] at hnd
    by_cases hk : nk = k
    · subst hk
      have hrest := lookupY_eq_none_of_not_mem_keys rest _ hnd.1
      rw [recursiveAdd.eq_4 _ _ _ _ _ hsome hnm,
        recursiveAdd_lookup_absent _ _ _ hrest]
      exact hE
    · have hN2 : lookupY rest k = some YVal.nil := by simpa [lookupY, hk] using hN
      rw [recursiveAdd.eq_4 _ _ _ _ _ hsome hnm]
      exact ih hnd.2 hE hN2

theorem recursiveAdd_new_key (E N : YMap) (k : String) (v : YVal) :
    (N.map Prod.fst).Nodup → lookupY E k = none → lookupY N k = some v →
    lookupY (recursiveAdd E N) k = some v := by
  induction E, N using recursiveAdd.induct with
  | case1 oldMap => intro _ _ hN; simp [lookupY] at hN
  | case2 oldMap nk nv rest hnone ih =>
    intro hnd hE hN
    simp only [List.map_cons, List.nodup_cons] at hnd
    by_cases hk : nk = k
    · subst hk
      have hv : nv = v := by simpa [lookupY] using hN
      subst hv
      have hrest := lookupY_eq_none_of_not_mem_keys rest _ hnd.1
      rw [recursiveAdd.eq_2 _ _ _ _ hnone,
        recursiveAdd_lookup_absent _ _ _ hrest, lookupY_setY_self]
    · have hN2 : lookupY rest k = some v := by simpa [lookupY, hk] using hN
      rw [recursiveAdd.eq_2 _ _ _ _ hnone]
      exact ih hnd.2 (by rw [lookupY_setY_ne _ _ _ _ hk]; exact hE) hN2
  | case3 oldMap nk rest ovm nvm hsome ih1 ih2 =>
    intro hnd hE hN
    simp only [List.map_cons, List.nodup_cons] at hnd
    by_cases hk : nk = k
    · subst hk; rw [hsome] at hE; cases hE
    · have hN2 : lookupY rest k = some v := by simpa [lookupY, hk] using hN
      rw [recursiveAdd.eq_3 _ _ _ _ _ hsome]
      exact ih2 hnd.2 (by rw [lookupY_setY_ne _ _ _ _ hk]; exact hE) hN2
  | case4 oldMap nk nv rest val hsome hnm ih =>
    intro hnd hE hN
    simp only [List.map_cons, List.nodup_cons] at hnd
    by_cases hk : nk = k
    · subst hk; rw [hsome] at hE; cases hE
    · have hN2 : lookupY rest k = some v := by simpa [lookupY, hk] using hN
      rw [recursiveAdd.eq_4 _ _ _ _ _ hsome hnm]
      exact ih hnd.2 hE hN2

theorem recursiveAdd_merges_submaps (E N : YMap) (k : String) (ovm nvm : YMap) :
    (N.map Prod.fst).Nodup → lookupY E k = some (YVal.map ovm) →
    lookupY N k = some (YVal.map nvm) →
    lookupY (recursiveAdd E N) k = some (YVal.map (recursiveAdd ovm nvm)) := by
  induction E, N using recursiveAdd.induct with
  | case1 oldMap => intro _ _ hN; simp [lookupY] at hN
  | case2 oldMap nk nv rest hnone ih =>
    intro hnd hE hN
    simp only [List.map_cons, List.nodup_cons] at hnd
    have hk : nk ≠ k := by intro he; subst he; rw [hnone] at hE; cases hE
    have hN2 : lookupY rest k = some (YVal.map nvm) := by
      simpa [lookupY, hk] using hN
    rw [recursiveAdd.eq_2 _ _ _ _ hnone]
    exact ih hnd.2 (by rw [lookupY_setY_ne _ _ _ _ hk]; exact hE) hN2
  | case3 oldMap nk rest ovm2 nvm2 hsome ih1 ih2 =>
    intro hnd hE hN
    simp only [List.map_cons, List.nodup_cons] at hnd
    by_cases hk : nk = k
    · subst hk
      rw [hsome] at hE
      injection hE with h1
      injection h1 with h2
      subst h2
      have hv : YVal.map nvm2 = YVal.map nvm := by simpa [lookupY] using hN
      injection hv with h3
      subst h3
      have hrest := lookupY_eq_none_of_not_mem_keys rest _ hnd.1
      rw [recursiveAdd.eq_3 _ _ _ _ _ hsome,
        recursiveAdd_lookup_absent _ _ _ hrest, lookupY_setY_self]
    · have hN2 : lookupY rest k = some (YVal.map nvm) := by
        simpa [lookupY, hk] using hN
      rw [recursiveAdd.eq_3 _ _ _ _ _ hsome]
      exact ih2 hnd.2 (by rw [lookupY_setY_ne _ _ _ _ hk]; exact hE) hN2
  | case4 oldMap nk nv rest val hsome hnm ih =>
    intro hnd hE hN
    simp only [List.map_cons, List.nodup_cons] at hnd
    by_cases hk : nk = k
    · subst hk
      have hv : nv = YVal.map nvm := by simpa [lookupY] using hN
      rw [hsome] at hE
      injection hE with h1
      exact (hnm ovm nvm h1 hv).elim
    · have hN2 : lookupY rest k = some (YVal.map nvm) := by
        simpa [lookupY, hk] using hN
      rw [recursiveAdd.eq_4 _ _ _ _ _ hsome hnm]
      exact ih hnd.2 hE hN2

inductive Blob where
  | empty
  | yaml (m : YMap)
  | invalid

/-- The emptiness test the source performs on stored YAML text. -/
def Blob.isNonEmpty : Blob → Bool
  | Blob.empty => false
  | _ => true

/-- ghodss/yaml Unmarshal into a fresh map: empty text leaves the map empty,
a well-formed blob yields its decoded mapping, undecodable text errors. -/
def yamlUnmarshal : Blob → Option YMap
  | Blob.empty => some []
  | Blob.yaml m => some m
  | Blob.invalid => none

/-- ghodss/yaml Marshal of a decoded mapping; total in the model, so the
marshal-error branches of the source are unreachable here. -/
def yamlMarshal (m : YMap) : Blob := Blob.yaml m

/-- addProperty (config_service.go lines 216-228).  Returns the Go pair
(string, error).  The unmarshal-failure branch of the source reads
  if err != nil then return "", nil
returning the EMPTY string together with a NIL error; the model reproduces
that faithfully.  The marshal branch cannot fail in the model. -/
def addProperty (oldYaml : Blob) (newMap : YMap) : Blob × Option String :=
  match yamlUnmarshal oldYaml with
  | none => (Blob.empty, none)
  | some oldMap => (yamlMarshal (recursiveAdd oldMap newMap), none)

/-- Modelled from the spec: the StoredRecord of the external store collaborator
(section 6) — a named, namespaced record holding profile-key to YAML-text data
and a version tag (the annotations mapping is collapsed to the single
well-known version entry the core reads). -/
structure StoredRecord where
  name : String
  ns : String
  data : List (String × Blob)
  version : String

abbrev ConfigStore := List StoredRecord

/-- Go map read over a record data mapping: missing keys give the empty
string. -/
def lookupBlob : List (String × Blob) → String → Blob
  | [], _ => Blob.empty
  | (k', b) :: rest, k => if k' = k then b else lookupBlob rest k

def setBlob : List (String × Blob) → String → Blob → List (String × Blob)
  | [], k, b => [(k, b)]
  | (k', b') :: rest, k, b =>
      if k' = k then (k, b) :: rest else (k', b') :: setBlob rest k b

/-- Modelled from the spec: constants of the entity package (fixed gateway
service name, reserved shared route-table service name, default profile
sentinel, update-policy enum values). -/
def ApiGatewayServiceName : String := "api-gateway"

def RouteConfigMap : String := "zuul-route"

def DefaultProfile : String := "default"

def UpdatePolicyNot : String := "not"

def UpdatePolicyAdd : String := "add"

def UpdatePolicyCover : String := "cover"

/-- Modelled from the spec: utils.ConfigMapProfileKey, the profile-key naming
scheme (section 4.5 step 2): application.yml for the default profile,
application-PROFILE.yml otherwise. -/
def ConfigMapProfileKey (profile : String) : String :=
  if profile = DefaultProfile then "application.yml"
  else "application-" ++ profile ++ ".yml"

structure SaveConfigDTO where
  service : String
  version : String
  profile : String
  ns : String
  updatePolicy : String
  yaml : Blob

/-- Modelled from the spec: queryRecord(service, namespace) of the store
collaborator — absent is none. -/
def queryConfigMap (store : ConfigStore) (service ns : String) :
    Option StoredRecord :=
  store.find? (fun r => r.name == service && r.ns == ns)

/-- Modelled from the spec: queryRecordByName(service), the namespace-agnostic
lookup used by poll. -/
def queryConfigMapByName (store : ConfigStore) (service : String) :
    Option StoredRecord :=
  store.find? (fun r => r.name == service)

/-- Modelled from the spec: createRecord — a save request creates a new record
holding the document body under its profile-key, tagged with its version.
The store never fails in the model, so the create-error branch is dead. -/
def createConfigMap (dto : SaveConfigDTO) (store : ConfigStore) : ConfigStore :=
  store ++ [{ name := dto.service, ns := dto.ns,
              data := [(ConfigMapProfileKey dto.profile, dto.yaml)],
              version := dto.version }]

/-- Modelled from the spec: updateRecord — persists the document body under
its profile-key on the matching record, discarding prior content for that
profile-key only, and refreshes the version tag.  Never fails in the model. -/
def updateConfigMap (dto : SaveConfigDTO) (store : ConfigStore) : ConfigStore :=
  store.map (fun r =>
    if r.name == dto.service && r.ns == dto.ns then
      { r with data := setBlob r.data (ConfigMapProfileKey dto.profile) dto.yaml,
               version := dto.version }
    else r)

inductive SaveOutcome where
  | ok
  | conflict
  | mergeError
  | panicNilDeref

/-- createOrUpdateConfigMap (config_service.go lines 86-123).  The branch
structure mirrors the source: create when absent; 304 when present under the
reject policy; under the add policy read the prior blob from the ORIGINAL
query result — which is nil when the record was just created, so the source
dereferences a nil pointer (queryConfigMap.Data) and panics; merge when the
prior blob is non-empty; update whenever the policy is not reject. -/
def createOrUpdateConfigMap (dto : SaveConfigDTO) (source : YMap)
    (store : ConfigStore) : SaveOutcome × ConfigStore :=
  let q := queryConfigMap store dto.service dto.ns
  let store1 := match q with
    | none => createConfigMap dto store
    | some _ => store
  if q.isSome ∧ dto.updatePolicy = UpdatePolicyNot then
    (SaveOutcome.conflict, store1)
  else if dto.updatePolicy = UpdatePolicyAdd then
    match q with
    | none => (SaveOutcome.panicNilDeref, store1)
    | some r =>
      let oldYaml := lookupBlob r.data (ConfigMapProfileKey dto.profile)
      if oldYaml.isNonEmpty then
        match addProperty oldYaml source with
        | (_, some _) => (SaveOutcome.mergeError, store1)
        | (newYaml, none) =>
            (SaveOutcome.ok, updateConfigMap { dto with yaml := newYaml } store1)
      else
        (SaveOutcome.ok, updateConfigMap dto store1)
  else if dto.updatePolicy ≠ UpdatePolicyNot then
    (SaveOutcome.ok, updateConfigMap dto store1)
  else
    (SaveOutcome.ok, store1)

/-- separateRoute outcome: the Go signature (gb, rb, rm, err) extended with
the remainder mapping rem — the input gateway mapping after the in-place
removal of the routes sub-key — which the caller keeps through aliasing in
the source, plus an explicit panic outcome. -/
inductive SepOut where
  | panic
  | ok (gb rb : Blob) (rm rem : YMap)

/-- The scan loop of separateRoute (config_service.go lines 243-253): for a
zuul key the source evaluates reflect.TypeOf(v).Kind(); when v is the
interface nil this calls Kind on a nil reflect.Type and panics.  A zuul
mapping loses its routes entry, which accumulates in the route mapping; any
other value passes through. -/
def sepEntries : YMap → Option (YMap × YMap)
  | [] => some ([], [])
  | (k, v) :: rest =>
    if k = "zuul" then
      match v with
      | YVal.nil => none
      | YVal.map vm =>
        match sepEntries rest with
        | none => none
        | some (rest2, racc) =>
          match lookupY vm "routes" with
          | some rv =>
              some ((k, YVal.map (removeY vm "routes")) :: rest2,
                setY racc "routes" rv)
          | none => some ((k, YVal.map vm) :: rest2, racc)
      | v2 =>
        match sepEntries rest with
        | none => none
        | some (rest2, racc) => some ((k, v2) :: rest2, racc)
    else
      match sepEntries rest with
      | none => none
      | some (rest2, racc) => some ((k, v) :: rest2, racc)

/-- separateRoute (config_service.go lines 241-264): serializes the mutated
gateway mapping and the wrapped route mapping, which always retains the
top-level zuul key (bound to the possibly empty extracted routes). -/
def separateRoute (gateway : YMap) : SepOut :=
  match sepEntries gateway with
  | none => SepOut.panic
  | some (rem, racc) =>
    let rm : YMap := [("zuul", YVal.map racc)]
    SepOut.ok (yamlMarshal rem) (yamlMarshal rm) rm rem

inductive SaveExec where
  | panic (store : ConfigStore)
  | done (outcomes : List SaveOutcome) (store : ConfigStore)

/-- Save (config_service.go lines 42-84) after body decoding and validation:
route separation happens exactly when the service name equals the fixed
ApiGatewayServiceName constant; the route document is saved first under the
reserved shared service name with the default profile, then the remainder is
saved under the requesting service name.  A Go panic in either step aborts
the request with the store as mutated so far. -/
def runSave (dto : SaveConfigDTO) (source : YMap) (store : ConfigStore) :
    SaveExec :=
  if dto.service = ApiGatewayServiceName then
    match separateRoute source with
    | SepOut.panic => SaveExec.panic store
    | SepOut.ok gb rb rm rem =>
      let routeDTO : SaveConfigDTO :=
        { service := RouteConfigMap, version := dto.version,
          profile := DefaultProfile, ns := dto.ns,
          updatePolicy := dto.updatePolicy, yaml := rb }
      match createOrUpdateConfigMap routeDTO rm store with
      | (SaveOutcome.panicNilDeref, s1) => SaveExec.panic s1
      | (o1, s1) =>
        match createOrUpdateConfigMap { dto with yaml := gb } rem s1 with
        | (SaveOutcome.panicNilDeref, s2) => SaveExec.panic s2
        | (o2, s2) => SaveExec.done [o1, o2] s2
  else
    match createOrUpdateConfigMap dto source store with
    | (SaveOutcome.panicNilDeref, s1) => SaveExec.panic s1
    | (o1, s1) => SaveExec.done [o1] s1

/-- Modelled from the spec: the path-joining rule of the flattener (section
4.1) — mapping keys and sequence indices are joined with a dot onto the
current path. -/
def joinPath (path k : String) : String :=
  if path = "" then k else path ++ "." ++ k

mutual
/-- Modelled from the spec: utils.ConvertRecursiveMapToSingleMap on a single
value (section 4.1) — nested mappings and sequences recurse, every other
value is a leaf emitted at its dotted path. -/
def flattenVal (path : String) : YVal → List (String × YVal)
  | YVal.map es => flattenMap path es
  | YVal.seq l => flattenSeq path 0 l
  | v => [(path, v)]

def flattenMap (path : String) : YMap → List (String × YVal)
  | [] => []
  | (k, v) :: rest => flattenVal (joinPath path k) v ++ flattenMap path rest

def flattenSeq (path : String) (i : Nat) : List YVal → List (String × YVal)
  | [] => []
  | v :: rest => flattenVal (joinPath path (toString i)) v ++ flattenSeq path (i + 1) rest
end

/-- Modelled from the spec: utils.ConvertRecursiveMapToSingleMap (section
4.1), the flattening transform applied by the poll path. -/
def ConvertRecursiveMapToSingleMap (source : YMap) : YMap :=
  flattenMap "" source

/-- Modelled from the spec: the static process-wide configuration (section 6)
— the gateway-class name set and the fixed additions appended at poll time. -/
structure EnvConfig where
  gatewayNames : List String
  additions : YMap

/-- isGateway (config_service.go lines 207-214): membership of the service
name in the configured gateway name set. -/
def isGateway (cfg : EnvConfig) (service : String) : Bool :=
  cfg.gatewayNames.any (fun v => v == service)

inductive GetErr where
  | recordMissing
  | decodeError

/-- getConfigFromConfigMap (config_service.go lines 185-205): resolve the
record by name, select the profile-key from the version, decode the blob
(empty text leaves the mapping empty), flatten, and report the version
annotation. -/
def getConfigFromConfigMap (store : ConfigStore) (service version : String) :
    Except GetErr (YMap × String) :=
  match queryConfigMapByName store service with
  | none => Except.error GetErr.recordMissing
  | some cm =>
    let profKey := if version ≠ DefaultProfile
      then "application-" ++ version ++ ".yml" else "application.yml"
    match lookupBlob cm.data profKey with
    | Blob.empty => Except.ok (ConvertRecursiveMapToSingleMap [], cm.version)
    | Blob.invalid => Except.error GetErr.decodeError
    | Blob.yaml m => Except.ok (ConvertRecursiveMapToSingleMap m, cm.version)

/-- strings.HasPrefix, modelled over the character lists of the two
strings. -/
def goHasPrefix (s pre : String) : Bool :=
  pre.data.isPrefixOf s.data

/-- The route-key deletion loop of Poll (config_service.go lines 151-155). -/
def dropRouteKeys (kvMap : YMap) : YMap :=
  kvMap.filter (fun p => !(goHasPrefix p.1 "zuul.routes."))

/-- A Go overlay loop: assign every binding of the second mapping into the
first (used for the route-table overlay and the static additions). -/
def overlayF : YMap → YMap → YMap
  | base, [] => base
  | base, (k, v) :: rest => overlayF (setY base k v) rest

structure Environment where
  name : String
  version : String
  profiles : List String
  propertySources : List (String × YMap)

inductive PollResult where
  | badRequest
  | notFound
  | ok (env : Environment)

/-- Poll (config_service.go lines 125-177): resolve and flatten the primary
record; for a gateway-class service resolve the shared route table, delete
the locally stored route keys and overlay the shared ones; append the static
additions; assemble the Environment.  Either resolution failure aborts with
the 404 outcome and no Environment is produced. -/
def runPoll (cfg : EnvConfig) (store : ConfigStore) (service version : String) :
    PollResult :=
  if service = "" then PollResult.badRequest
  else if version = "" then PollResult.badRequest
  else
    match getConfigFromConfigMap store service version with
    | Except.error _ => PollResult.notFound
    | Except.ok (kvMap, configMapVersion) =>
      match (if isGateway cfg service then
               match getConfigFromConfigMap store RouteConfigMap version with
               | Except.error _ => none
               | Except.ok (routeMap, _) =>
                   some (overlayF (dropRouteKeys kvMap) routeMap)
             else some kvMap) with
      | none => PollResult.notFound
      | some kv1 =>
        PollResult.ok
          { name := service, version := configMapVersion,
            profiles := [version],
            propertySources :=
              [(service ++ "-" ++ version ++ "-" ++ configMapVersion,
                overlayF kv1 cfg.additions)] }

theorem sepEntries_noZuul (m : YMap) (h : ∀ p ∈ m, p.1 ≠ "zuul") :
    sepEntries m = some (m, []) := by
  induction m with
  | nil => rfl
  | cons p rest ih =>
    obtain ⟨k, v⟩ := p
    have hk : k ≠ "zuul" := h (k, v) (List.mem_cons_self _ _)
    have ih2 := ih (fun q hq => h q (List.mem_cons_of_mem _ hq))
    simp [sepEntries, hk, ih2]

theorem sepEntries_char (gateway : YMap) : ∀ (vm : YMap) (rv : YVal),
    (gateway.map Prod.fst).Nodup →
    lookupY gateway "zuul" = some (YVal.map vm) →
    lookupY vm "routes" = some rv →
    ∃ rem, sepEntries gateway = some (rem, [("routes", rv)]) ∧
      lookupY rem "zuul" = some (YVal.map (removeY vm "routes")) ∧
      (∀ k, k ≠ "zuul" → lookupY rem k = lookupY gateway k) := by
  induction gateway with
  | nil => intro vm rv _ hz _; simp [lookupY] at hz
  | cons p rest ih =>
    intro vm rv hnd hz hr
    obtain ⟨k, v⟩ := p
    simp only [List.map_cons, List.nodup_cons] at hnd
    by_cases hk : k = "zuul"
    · subst hk
      have hv : v = YVal.map vm := by simpa [lookupY] using hz
      subst hv
      have hnz : ∀ q ∈ rest, q.1 ≠ "zuul" := by
        intro q hq he
        exact hnd.1 (he ▸ List.mem_map_of_mem Prod.fst hq)
      refine ⟨("zuul", YVal.map (removeY vm "routes")) :: rest, ?_, ?_, ?_⟩
      · simp [sepEntries, sepEntries_noZuul rest hnz, hr, setY]
      · simp [lookupY]
      · intro k2 hk2
        have hne : ¬("zuul" = k2) := fun h2 => hk2 h2.symm
        simp [lookupY, hne]
    · have hz2 : lookupY rest "zuul" = some (YVal.map vm) := by
        simpa [lookupY, hk] using hz
      obtain ⟨rem, h1, h2, h3⟩ := ih vm rv hnd.2 hz2 hr
      refine ⟨(k, v) :: rem, ?_, ?_, ?_⟩
      · simp [sepEntries, hk, h1]
      · simp [lookupY, hk, h2]
      · intro k2 hk2
        by_cases hkk : k = k2
        · subst hkk; simp [lookupY]
        · simp [lookupY, hkk, h3 k2 hk2]

theorem lookupY_overlayF_of_none (over : YMap) : ∀ (base : YMap) (k : String),
    lookupY over k = none →
    lookupY (overlayF base over) k = lookupY base k := by
  induction over with
  | nil => intro base k _; rfl
  | cons p rest ih =>
    intro base k h
    obtain ⟨k2, v2⟩ := p
    have hk : k2 ≠ k := by intro he; subst he; simp [lookupY] at h
    have h2 : lookupY rest k = none := by simpa [lookupY, hk] using h
    simp only [overlayF]
    rw [ih _ _ h2, lookupY_setY_ne _ _ _ _ hk]

theorem lookupY_overlayF_of_some (over : YMap) : ∀ (base : YMap) (k : String)
    (v : YVal), (over.map Prod.fst).Nodup → lookupY over k = some v →
    lookupY (overlayF base over) k = some v := by
  induction over with
  | nil => intro base k v _ h; simp [lookupY] at h
  | cons p rest ih =>
    intro base k v hnd h
    obtain ⟨k2, v2⟩ := p
    simp only [List.map_cons, List.nodup_cons] at hnd
    by_cases hk : k2 = k
    · subst hk
      have hv : v2 = v := by simpa [lookupY] using h
      subst hv
      have hrest : lookupY rest k2 = none :=
        lookupY_eq_none_of_not_mem_keys _ _ hnd.1
      simp only [overlayF]
      rw [lookupY_overlayF_of_none _ _ _ hrest, lookupY_setY_self]
    · have h2 : lookupY rest k = some v := by simpa [lookupY, hk] using h
      simp only [overlayF]
      exact ih _ _ _ hnd.2 h2

theorem lookupY_dropRouteKeys (kvMap : YMap) (k : String)
    (h : goHasPrefix k "zuul.routes." = true) :
    lookupY (dropRouteKeys kvMap) k = none := by
  induction kvMap with
  | nil => rfl
  | cons p rest ih =>
    obtain ⟨k2, v2⟩ := p
    by_cases hk : k2 = k
    · subst hk
      have he : dropRouteKeys ((k2, v2) :: rest) = dropRouteKeys rest := by
        simp [dropRouteKeys, List.filter_cons, h]
      rw [he]; exact ih
    · cases hsw : goHasPrefix k2 "zuul.routes." with
      | false =>
        have he : dropRouteKeys ((k2, v2) :: rest) = (k2, v2) :: dropRouteKeys rest := by
          simp [dropRouteKeys, List.filter_cons, hsw]
        rw [he]; simp [lookupY, hk, ih]
      | true =>
        have he : dropRouteKeys ((k2, v2) :: rest) = dropRouteKeys rest := by
          simp [dropRouteKeys, List.filter_cons, hsw]
        rw [he]; exact ih

/-- C1: the claim says a first-time save under the merge-if-exists policy
creates the record, then unconditionally writes the incoming document and
completes normally.  Evaluating the save path at such a request shows the
source instead panics: after creating, it reads the Data field of the still
nil query result, so the request aborts after the create with no update. -/
theorem c1_first_save_merge_policy_panics :
    runSave
      { service := "svc", version := "v1", profile := "default", ns := "ns",
        updatePolicy := UpdatePolicyAdd,
        yaml := Blob.yaml [("a", YVal.scalar "1")] }
      [("a", YVal.scalar "1")] [] =
    SaveExec.panic
      [{ name := "svc", ns := "ns",
         data := [("application.yml", Blob.yaml [("a", YVal.scalar "1")])],
         version := "v1" }] := rfl

/-- C2: the additive merge law of recursiveAdd — keys already present with a
scalar or sequence value keep their exact value, keys only in the incoming
mapping are inserted with their exact nested value, and keys bound to
mappings on both sides are merged recursively under the same rules. -/
theorem c2_mergeAdd_additive (E N : YMap) (hnd : (N.map Prod.fst).Nodup) :
    (∀ k v, lookupY E k = some v → isScalarOrSeq v = true →
        lookupY (recursiveAdd E N) k = some v) ∧
    (∀ k v, lookupY E k = none → lookupY N k = some v →
        lookupY (recursiveAdd E N) k = some v) ∧
    (∀ k ovm nvm, lookupY E k = some (YVal.map ovm) →
        lookupY N k = some (YVal.map nvm) →
        lookupY (recursiveAdd E N) k = some (YVal.map (recursiveAdd ovm nvm))) := by
  refine ⟨?_, ?_, ?_⟩
  · intro k v hE hss
    refine recursiveAdd_keep_nonmap E N k v hE ?_
    cases v with
    | scalar s => rfl
    | seq l => rfl
    | nil => simp [isScalarOrSeq] at hss
    | map m => simp [isScalarOrSeq] at hss
  · intro k v hE hN
    exact recursiveAdd_new_key E N k v hnd hE hN
  · intro k ovm nvm hE hN
    exact recursiveAdd_merges_submaps E N k ovm nvm hnd hE hN

theorem c2_witness :
    lookupY (recursiveAdd
      [("a", YVal.map [("x", YVal.scalar "1")]), ("s", YVal.scalar "old")]
      [("a", YVal.map [("y", YVal.scalar "2")]), ("s", YVal.scalar "new"),
        ("b", YVal.scalar "3")]) "s" = some (YVal.scalar "old") ∧
    lookupY (recursiveAdd
      [("a", YVal.map [("x", YVal.scalar "1")]), ("s", YVal.scalar "old")]
      [("a", YVal.map [("y", YVal.scalar "2")]), ("s", YVal.scalar "new"),
        ("b", YVal.scalar "3")]) "b" = some (YVal.scalar "3") ∧
    lookupY (recursiveAdd
      [("a", YVal.map [("x", YVal.scalar "1")]), ("s", YVal.scalar "old")]
      [("a", YVal.map [("y", YVal.scalar "2")]), ("s", YVal.scalar "new"),
        ("b", YVal.scalar "3")]) "a" =
      some (YVal.map (recursiveAdd [("x", YVal.scalar "1")]
        [("y", YVal.scalar "2")])) :=
  ⟨(c2_mergeAdd_additive _ _ (by decide)).1 "s" _ rfl rfl,
   (c2_mergeAdd_additive _ _ (by decide)).2.1 "b" _ rfl rfl,
   (c2_mergeAdd_additive _ _ (by decide)).2.2 "a" _ _ rfl rfl⟩

/-- C3: the claim says a failing merge transform (for example an undecodable
stored blob) surfaces as a server error with no write.  Evaluating the
resolver at a record whose stored blob is undecodable under the add policy
shows the source instead reports success and OVERWRITES the record content
with the empty string, because addProperty returns a nil error together with
an empty result on unmarshal failure. -/
theorem c3_merge_decode_failure_overwrites :
    createOrUpdateConfigMap
      { service := "svc", version := "v2", profile := "default", ns := "ns",
        updatePolicy := UpdatePolicyAdd,
        yaml := Blob.yaml [("a", YVal.scalar "1")] }
      [("a", YVal.scalar "1")]
      [{ name := "svc", ns := "ns", data := [("application.yml", Blob.invalid)],
         version := "v1" }] =
    (SaveOutcome.ok,
      [{ name := "svc", ns := "ns", data := [("application.yml", Blob.empty)],
         version := "v2" }]) := rfl

/-- C4 counterexample: the claim quantifies over every service in the
configured gateway name set, but the save path separates routes only for the
fixed ApiGatewayServiceName.  With gateway-helper configured as
gateway-class, a save of gateway-helper persists its route keys verbatim
under its own service name. -/
theorem c4_counterexample :
    isGateway { gatewayNames := ["api-gateway", "gateway-helper"],
                additions := [] } "gateway-helper" = true ∧
    runSave
      { service := "gateway-helper", version := "v1", profile := "default",
        ns := "ns", updatePolicy := UpdatePolicyCover,
        yaml := Blob.yaml
          [("zuul", YVal.map [("routes", YVal.map [("r1", YVal.scalar "/foo")])])] }
      [("zuul", YVal.map [("routes", YVal.map [("r1", YVal.scalar "/foo")])])]
      [] =
    SaveExec.done [SaveOutcome.ok]
      [{ name := "gateway-helper", ns := "ns",
         data := [("application.yml", Blob.yaml
           [("zuul", YVal.map [("routes", YVal.map [("r1", YVal.scalar "/foo")])])])],
         version := "v1" }] := ⟨rfl, rfl⟩

/-- C4 (amended): route separation at save time is triggered exactly by the
fixed ApiGatewayServiceName, not by membership in the gateway name set; for
such a save the remainder persisted under the gateway service name carries no
routes key under zuul, while the extracted routes are persisted under the
reserved shared RouteConfigMap name with the default profile. -/
theorem c4_gateway_save_separates (source vm : YMap) (rv : YVal)
    (hnd : (source.map Prod.fst).Nodup)
    (hz : lookupY source "zuul" = some (YVal.map vm))
    (hr : lookupY vm "routes" = some rv) :
    ∃ rem,
      runSave
        { service := ApiGatewayServiceName, version := "v1",
          profile := "default", ns := "ns",
          updatePolicy := UpdatePolicyCover, yaml := yamlMarshal source }
        source [] =
      SaveExec.done [SaveOutcome.ok, SaveOutcome.ok]
        [{ name := RouteConfigMap, ns := "ns",
           data := [("application.yml",
             yamlMarshal [("zuul", YVal.map [("routes", rv)])])],
           version := "v1" },
         { name := ApiGatewayServiceName, ns := "ns",
           data := [("application.yml", yamlMarshal rem)],
           version := "v1" }] ∧
      lookupY rem "zuul" = some (YVal.map (removeY vm "routes")) ∧
      lookupY (removeY vm "routes") "routes" = none := by
  obtain ⟨rem, h1, h2, h3⟩ := sepEntries_char source vm rv hnd hz hr
  have hsep : separateRoute source =
      SepOut.ok (yamlMarshal rem)
        (yamlMarshal [("zuul", YVal.map [("routes", rv)])])
        [("zuul", YVal.map [("routes", rv)])] rem := by
    simp [separateRoute, h1]
  refine ⟨rem, ?_, h2, lookupY_removeY_self _ _⟩
  simp only [runSave, hsep]
  rfl

theorem c4_witness :
    ∃ rem,
      runSave
        { service := ApiGatewayServiceName, version := "v1",
          profile := "default", ns := "ns",
          updatePolicy := UpdatePolicyCover,
          yaml := yamlMarshal [("zuul", YVal.map [("routes", YVal.scalar "/r")]),
            ("other", YVal.scalar "x")] }
        [("zuul", YVal.map [("routes", YVal.scalar "/r")]),
          ("other", YVal.scalar "x")] [] =
      SaveExec.done [SaveOutcome.ok, SaveOutcome.ok]
        [{ name := RouteConfigMap, ns := "ns",
           data := [("application.yml",
             yamlMarshal [("zuul", YVal.map [("routes", YVal.scalar "/r")])])],
           version := "v1" },
         { name := ApiGatewayServiceName, ns := "ns",
           data := [("application.yml", yamlMarshal rem)],
           version := "v1" }] ∧
      lookupY rem "zuul" =
        some (YVal.map (removeY [("routes", YVal.scalar "/r")] "routes")) ∧
      lookupY (removeY [("routes", YVal.scalar "/r")] "routes") "routes" = none :=
  c4_gateway_save_separates
    [("zuul", YVal.map [("routes", YVal.scalar "/r")]), ("other", YVal.scalar "x")]
    [("routes", YVal.scalar "/r")] (YVal.scalar "/r") (by decide) rfl rfl

/-- C5 counterexample: the claim says the remainder drops the top-level zuul
key entirely when routes was its only content; the source never deletes the
zuul key, so for a document whose zuul mapping held only routes the remainder
still binds zuul to an empty mapping. -/
theorem c5_counterexample :
    separateRoute [("zuul", YVal.map [("routes", YVal.scalar "/foo")])] =
    SepOut.ok (yamlMarshal [("zuul", YVal.map [])])
      (yamlMarshal [("zuul", YVal.map [("routes", YVal.scalar "/foo")])])
      [("zuul", YVal.map [("routes", YVal.scalar "/foo")])]
      [("zuul", YVal.map [])] ∧
    lookupY [("zuul", YVal.map [])] "zuul" = some (YVal.map []) := ⟨rfl, rfl⟩

/-- C5 (amended): for a gateway document whose zuul key holds a mapping
containing routes, separateRoute removes routes from that mapping in place
and wraps the extracted value as a zuul-routes mapping; in the remainder the
top-level zuul key is ALWAYS retained, bound to the residue mapping (empty
when routes was its only content), and every other top-level key is kept
unchanged. -/
theorem c5_separateRoute_retains_zuul (gateway vm : YMap) (rv : YVal)
    (hnd : (gateway.map Prod.fst).Nodup)
    (hz : lookupY gateway "zuul" = some (YVal.map vm))
    (hr : lookupY vm "routes" = some rv) :
    ∃ rem,
      separateRoute gateway =
        SepOut.ok (yamlMarshal rem)
          (yamlMarshal [("zuul", YVal.map [("routes", rv)])])
          [("zuul", YVal.map [("routes", rv)])] rem ∧
      lookupY rem "zuul" = some (YVal.map (removeY vm "routes")) ∧
      lookupY (removeY vm "routes") "routes" = none ∧
      (∀ k, k ≠ "zuul" → lookupY rem k = lookupY gateway k) := by
  obtain ⟨rem, h1, h2, h3⟩ := sepEntries_char gateway vm rv hnd hz hr
  exact ⟨rem, by simp [separateRoute, h1], h2, lookupY_removeY_self _ _, h3⟩

theorem c5_witness :
    ∃ rem,
      separateRoute [("zuul", YVal.map [("routes", YVal.map [("r1", YVal.scalar "/foo")]),
        ("other", YVal.scalar "keep")])] =
        SepOut.ok (yamlMarshal rem)
          (yamlMarshal [("zuul", YVal.map
            [("routes", YVal.map [("r1", YVal.scalar "/foo")])])])
          [("zuul", YVal.map [("routes", YVal.map [("r1", YVal.scalar "/foo")])])]
          rem ∧
      lookupY rem "zuul" = some (YVal.map (removeY
        [("routes", YVal.map [("r1", YVal.scalar "/foo")]),
          ("other", YVal.scalar "keep")] "routes")) ∧
      lookupY (removeY [("routes", YVal.map [("r1", YVal.scalar "/foo")]),
        ("other", YVal.scalar "keep")] "routes") "routes" = none ∧
      (∀ k, k ≠ "zuul" →
        lookupY rem k =
        lookupY [("zuul", YVal.map [("routes", YVal.map [("r1", YVal.scalar "/foo")]),
          ("other", YVal.scalar "keep")])] k) :=
  c5_separateRoute_retains_zuul
    [("zuul", YVal.map [("routes", YVal.map [("r1", YVal.scalar "/foo")]),
      ("other", YVal.scalar "keep")])]
    [("routes", YVal.map [("r1", YVal.scalar "/foo")]), ("other", YVal.scalar "keep")]
    (YVal.map [("r1", YVal.scalar "/foo")]) (by decide) rfl rfl

/-- C6: a successful poll of a gateway-class service deletes every key with
the zuul.routes. prefix coming from the service own flattened document and
overlays every flattened key of the shared route table on top, the route
table value winning on collision; the assembled Environment carries exactly
that mapping (plus the static additions applied after it). -/
theorem c6_gateway_poll_overlay (cfg : EnvConfig) (store : ConfigStore)
    (service version : String) (kvMap routeMap : YMap) (cmv rtv : String)
    (hs : service ≠ "") (hv : version ≠ "")
    (hgw : isGateway cfg service = true)
    (h1 : getConfigFromConfigMap store service version = Except.ok (kvMap, cmv))
    (h2 : getConfigFromConfigMap store RouteConfigMap version = Except.ok (routeMap, rtv))
    (hnd : (routeMap.map Prod.fst).Nodup) :
    runPoll cfg store service version =
      PollResult.ok
        { name := service, version := cmv, profiles := [version],
          propertySources :=
            [(service ++ "-" ++ version ++ "-" ++ cmv,
              overlayF (overlayF (dropRouteKeys kvMap) routeMap) cfg.additions)] } ∧
    (∀ k, goHasPrefix k "zuul.routes." = true → lookupY routeMap k = none →
      lookupY (overlayF (dropRouteKeys kvMap) routeMap) k = none) ∧
    (∀ k v, lookupY routeMap k = some v →
      lookupY (overlayF (dropRouteKeys kvMap) routeMap) k = some v) := by
  refine ⟨?_, ?_, ?_⟩
  · simp [runPoll, hs, hv, h1, h2, hgw]
  · intro k hsw hro
    rw [lookupY_overlayF_of_none _ _ _ hro]
    exact lookupY_dropRouteKeys _ _ hsw
  · intro k v hro
    exact lookupY_overlayF_of_some _ _ _ _ hnd hro

theorem c6_witness :
    lookupY (overlayF (dropRouteKeys [("zuul.routes.a", YVal.scalar "1")])
      [("zuul.routes.b", YVal.scalar "2")]) "zuul.routes.a" = none ∧
    lookupY (overlayF (dropRouteKeys [("zuul.routes.a", YVal.scalar "1")])
      [("zuul.routes.b", YVal.scalar "2")]) "zuul.routes.b" =
      some (YVal.scalar "2") :=
  ⟨(c6_gateway_poll_overlay { gatewayNames := ["gw"], additions := [] }
      [{ name := "gw", ns := "n",
         data := [("application.yml", Blob.yaml
           [("zuul", YVal.map [("routes", YVal.map [("a", YVal.scalar "1")])])])],
         version := "cv" },
       { name := "zuul-route", ns := "n",
         data := [("application.yml", Blob.yaml
           [("zuul", YVal.map [("routes", YVal.map [("b", YVal.scalar "2")])])])],
         version := "rv" }]
      "gw" "default" [("zuul.routes.a", YVal.scalar "1")]
      [("zuul.routes.b", YVal.scalar "2")] "cv" "rv"
      (by decide) (by decide) rfl rfl rfl (by decide)).2.1
      "zuul.routes.a" (by decide) rfl,
   (c6_gateway_poll_overlay { gatewayNames := ["gw"], additions := [] }
      [{ name := "gw", ns := "n",
         data := [("application.yml", Blob.yaml
           [("zuul", YVal.map [("routes", YVal.map [("a", YVal.scalar "1")])])])],
         version := "cv" },
       { name := "zuul-route", ns := "n",
         data := [("application.yml", Blob.yaml
           [("zuul", YVal.map [("routes", YVal.map [("b", YVal.scalar "2")])])])],
         version := "rv" }]
      "gw" "default" [("zuul.routes.a", YVal.scalar "1")]
      [("zuul.routes.b", YVal.scalar "2")] "cv" "rv"
      (by decide) (by decide) rfl rfl rfl (by decide)).2.2
      "zuul.routes.b" _ rfl⟩

/-- C7 counterexample: the claim says every save against an existing record
under reject-if-exists leaves the store unchanged by the request.  For a save
of the fixed gateway service name the route side save runs first: with an
existing gateway record but no shared route-table record, that side save
CREATES the route-table record (under the same reject policy the create is
not followed by an update), and only then is the 304 reported for the own
document — so the request does change the store. -/
theorem c7_counterexample :
    queryConfigMap
      [{ name := ApiGatewayServiceName, ns := "ns",
         data := [("application.yml", Blob.yaml [("a", YVal.scalar "1")])],
         version := "v1" }] RouteConfigMap "ns" = none ∧
    runSave
      { service := ApiGatewayServiceName, version := "v2", profile := "default",
        ns := "ns", updatePolicy := UpdatePolicyNot,
        yaml := Blob.yaml [("a", YVal.scalar "2")] }
      [("a", YVal.scalar "2")]
      [{ name := ApiGatewayServiceName, ns := "ns",
         data := [("application.yml", Blob.yaml [("a", YVal.scalar "1")])],
         version := "v1" }] =
    SaveExec.done [SaveOutcome.ok, SaveOutcome.conflict]
      [{ name := ApiGatewayServiceName, ns := "ns",
         data := [("application.yml", Blob.yaml [("a", YVal.scalar "1")])],
         version := "v1" },
       { name := RouteConfigMap, ns := "ns",
         data := [("application.yml", yamlMarshal [("zuul", YVal.map [])])],
         version := "v2" }] ∧
    queryConfigMap
      [{ name := ApiGatewayServiceName, ns := "ns",
         data := [("application.yml", Blob.yaml [("a", YVal.scalar "1")])],
         version := "v1" },
       { name := RouteConfigMap, ns := "ns",
         data := [("application.yml", yamlMarshal [("zuul", YVal.map [])])],
         version := "v2" }] RouteConfigMap "ns" =
      some { name := RouteConfigMap, ns := "ns",
             data := [("application.yml", yamlMarshal [("zuul", YVal.map [])])],
             version := "v2" } := ⟨rfl, rfl, rfl⟩

/-- C7 (amended): a save against an existing record under the reject-if-exists
policy is rejected by the resolver with the conflict outcome (the 304 branch,
distinct from success and from the server-error outcomes), the update is not
attempted, and the resolver leaves the store unchanged for that document; for
a non-gateway service the whole request therefore finishes with exactly that
single outcome and an unchanged store.  (For the fixed gateway service name
the preceding route side save can create a missing route-table record, so the
request as a whole may still change the store.) -/
theorem c7_reject_if_exists_unchanged (dto : SaveConfigDTO) (source : YMap)
    (store : ConfigStore) (r : StoredRecord)
    (hq : queryConfigMap store dto.service dto.ns = some r)
    (hp : dto.updatePolicy = UpdatePolicyNot) :
    createOrUpdateConfigMap dto source store = (SaveOutcome.conflict, store) ∧
    (dto.service ≠ ApiGatewayServiceName →
      runSave dto source store = SaveExec.done [SaveOutcome.conflict] store) := by
  have h1 : createOrUpdateConfigMap dto source store = (SaveOutcome.conflict, store) := by
    simp [createOrUpdateConfigMap, hq, hp]
  refine ⟨h1, fun hs => ?_⟩
  simp [runSave, hs, h1]

theorem c7_witness :
    createOrUpdateConfigMap
      { service := "svc", version := "v2", profile := "default", ns := "ns",
        updatePolicy := UpdatePolicyNot,
        yaml := Blob.yaml [("b", YVal.scalar "2")] }
      [("b", YVal.scalar "2")]
      [{ name := "svc", ns := "ns",
         data := [("application.yml", Blob.yaml [("a", YVal.scalar "1")])],
         version := "v1" }] =
    (SaveOutcome.conflict,
      [{ name := "svc", ns := "ns",
         data := [("application.yml", Blob.yaml [("a", YVal.scalar "1")])],
         version := "v1" }]) :=
  (c7_reject_if_exists_unchanged
    { service := "svc", version := "v2", profile := "default", ns := "ns",
      updatePolicy := UpdatePolicyNot,
      yaml := Blob.yaml [("b", YVal.scalar "2")] }
    [("b", YVal.scalar "2")]
    [{ name := "svc", ns := "ns",
       data := [("application.yml", Blob.yaml [("a", YVal.scalar "1")])],
       version := "v1" }]
    { name := "svc", ns := "ns",
      data := [("application.yml", Blob.yaml [("a", YVal.scalar "1")])],
      version := "v1" }
    rfl rfl).1

/-- C8: a poll whose primary record is absent resolves to the not-found
outcome, and a poll of a gateway-class service whose shared route-table
record is absent also resolves to the not-found outcome; in both cases no
Environment is produced. -/
theorem c8_poll_not_found (cfg : EnvConfig) (store : ConfigStore)
    (service version : String) (hs : service ≠ "") (hv : version ≠ "") :
    (queryConfigMapByName store service = none →
      runPoll cfg store service version = PollResult.notFound) ∧
    (isGateway cfg service = true →
      queryConfigMapByName store RouteConfigMap = none →
      runPoll cfg store service version = PollResult.notFound) := by
  constructor
  · intro h
    have hget : getConfigFromConfigMap store service version =
        Except.error GetErr.recordMissing := by
      simp [getConfigFromConfigMap, h]
    simp [runPoll, hs, hv, hget]
  · intro hgw h
    have hget2 : getConfigFromConfigMap store RouteConfigMap version =
        Except.error GetErr.recordMissing := by
      simp [getConfigFromConfigMap, h]
    rcases hget1 : getConfigFromConfigMap store service version with e | pr
    · simp [runPoll, hs, hv, hget1]
    · obtain ⟨kv, cmv⟩ := pr
      simp [runPoll, hs, hv, hget1, hgw, hget2]

theorem c8_witness :
    runPoll { gatewayNames := ["gw"], additions := [] }
      [{ name := "gw", ns := "n",
         data := [("application.yml", Blob.yaml [("a", YVal.scalar "1")])],
         version := "cv" }]
      "missing" "default" = PollResult.notFound ∧
    runPoll { gatewayNames := ["gw"], additions := [] }
      [{ name := "gw", ns := "n",
         data := [("application.yml", Blob.yaml [("a", YVal.scalar "1")])],
         version := "cv" }]
      "gw" "default" = PollResult.notFound :=
  ⟨(c8_poll_not_found { gatewayNames := ["gw"], additions := [] }
      [{ name := "gw", ns := "n",
         data := [("application.yml", Blob.yaml [("a", YVal.scalar "1")])],
         version := "cv" }]
      "missing" "default" (by decide) (by decide)).1 rfl,
   (c8_poll_not_found { gatewayNames := ["gw"], additions := [] }
      [{ name := "gw", ns := "n",
         data := [("application.yml", Blob.yaml [("a", YVal.scalar "1")])],
         version := "cv" }]
      "gw" "default" (by decide) (by decide)).2 rfl rfl⟩

/-- C9: when a key is present in both mappings and either side holds nil, the
merge discards the incoming value, keeps the existing binding, and completes
normally (the source short-circuits its reflect guard on nil, so no crash is
possible on this path). -/
theorem c9_nil_value_discarded (E N : YMap) (k : String) (ov nv : YVal)
    (hnd : (N.map Prod.fst).Nodup)
    (hE : lookupY E k = some ov) (hN : lookupY N k = some nv)
    (hnil : ov = YVal.nil ∨ nv = YVal.nil) :
    lookupY (recursiveAdd E N) k = some ov := by
  rcases hnil with h | h
  · subst h
    exact recursiveAdd_keep_nonmap E N k _ hE rfl
  · subst h
    exact recursiveAdd_keep_nilIncoming E N k ov hnd hE hN

theorem c9_witness :
    lookupY (recursiveAdd [("k", YVal.nil)]
      [("k", YVal.map [("x", YVal.scalar "1")])]) "k" = some YVal.nil ∧
    lookupY (recursiveAdd [("j", YVal.scalar "1")] [("j", YVal.nil)]) "j" =
      some (YVal.scalar "1") :=
  ⟨c9_nil_value_discarded [("k", YVal.nil)]
      [("k", YVal.map [("x", YVal.scalar "1")])] "k" YVal.nil
      (YVal.map [("x", YVal.scalar "1")]) (by decide) rfl rfl (Or.inl rfl),
   c9_nil_value_discarded [("j", YVal.scalar "1")] [("j", YVal.nil)] "j"
      (YVal.scalar "1") YVal.nil (by decide) rfl rfl (Or.inr rfl)⟩

/-- C10: separateRoute is not total over well-formed decoded documents — a
gateway document binding the top-level zuul key to nil makes the source call
Kind on the nil reflect.Type, so the whole gateway save path aborts with a
panic instead of answering with the 500 separation-error response. -/
theorem c10_separateRoute_nil_panics :
    separateRoute [("zuul", YVal.nil)] = SepOut.panic ∧
    runSave
      { service := ApiGatewayServiceName, version := "v1", profile := "default",
        ns := "ns", updatePolicy := UpdatePolicyCover,
        yaml := Blob.yaml [("zuul", YVal.nil)] }
      [("zuul", YVal.nil)] [] = SaveExec.panic [] := ⟨rfl, rfl⟩
